import Mathlib

/-!
Verification of the SERP-tracker backend (pool manager, response parser,
domain matcher) against its natural-language specification.  The TypeScript
source in `src/services/serpApiPoolManager.ts` is embedded shallowly: JS
strings become `String`, JS numbers on the integer paths become `Int`/`Nat`,
optional fields become `Option`, and JS truthiness is made explicit.  The
string primitives are implemented over `List Char` so that every definition
evaluates by kernel reduction.
-/

namespace Serp

/-! ### JS-style string primitives -/

/-- Substring test on character lists (the semantics of JS `includes`). -/
def hasSub (sub : List Char) : List Char → Bool
  | [] => sub.isEmpty
  | c :: t => sub.isPrefixOf (c :: t) || hasSub sub t

/-- JS `a.includes(b)`. -/
def jsIncludes (s sub : String) : Bool := hasSub sub.data s.data

/-- JS `String.prototype.toLowerCase` restricted to ASCII (all strings the
code manipulates are ASCII hostnames and messages). -/
def jsToLower (s : String) : String := ⟨s.data.map Char.toLower⟩

/-- JS `String.prototype.trim`. -/
def jsTrim (s : String) : String :=
  ⟨((s.data.dropWhile Char.isWhitespace).reverse.dropWhile Char.isWhitespace).reverse⟩

/-- `s.startsWith p`, over the character list. -/
def strStarts (s p : String) : Bool := p.data.isPrefixOf s.data

/-- `s.endsWith p`, over the character list. -/
def strEnds (s p : String) : Bool := p.data.isSuffixOf s.data

/-- Drop the first `n` characters. -/
def strDrop (s : String) (n : Nat) : String := ⟨s.data.drop n⟩

/-- Drop the last `n` characters. -/
def strDropRight (s : String) (n : Nat) : String := ⟨s.data.take (s.data.length - n)⟩

/-- Longest prefix of characters satisfying `p`. -/
def strTakeWhile (p : Char → Bool) (s : String) : String := ⟨s.data.takeWhile p⟩

/-- JS `s.split(sep)` for a single-character separator, on character lists. -/
def splitChar (sep : Char) : List Char → List (List Char)
  | [] => [[]]
  | c :: t =>
    match splitChar sep t with
    | [] => [[]]
    | h :: r => if c = sep then [] :: h :: r else (c :: h) :: r

/-- JS `s.split(sep)` for a single-character separator. -/
def strSplit (s : String) (sep : Char) : List String :=
  (splitChar sep s.data).map (⟨·⟩)

/-- JS `parts.join('.')`. -/
def joinDots : List String → String
  | [] => ""
  | [p] => p
  | p :: ps => p ++ "." ++ joinDots ps

/-- JS truthiness of an optional string (`undefined` and `""` are falsy). -/
def truthyStr : Option String → Bool
  | Option.none => false
  | some s => s ≠ ""

/-- JS truthiness of an optional number (`undefined` and `0` are falsy;
`NaN` does not arise on the embedded paths). -/
def truthyInt : Option Int → Bool
  | Option.none => false
  | some n => n ≠ 0

/-- Whether an optional number is present and strictly positive
(`result.position && result.position > 0`). -/
def posPositive : Option Int → Bool
  | Option.none => false
  | some n => n > 0

/-- Numeric value of a decimal digit string (the value JS `parseInt`
returns on an all-digit string). -/
def digitsVal (s : String) : Nat :=
  s.data.foldl (fun acc c => 10 * acc + (c.toNat - '0'.toNat)) 0

/-- JS `parseInt(s)` (decimal): optional leading whitespace, optional sign,
then a digit run; `Option.none` plays the role of `NaN`. -/
def jsParseInt (s : String) : Option Int :=
  let t := s.data.dropWhile Char.isWhitespace
  let (neg, t) :=
    if ['-'].isPrefixOf t then (true, t.drop 1)
    else if ['+'].isPrefixOf t then (false, t.drop 1)
    else (false, t)
  let ds := t.takeWhile Char.isDigit
  if ds.isEmpty then Option.none
  else some (if neg then -(digitsVal ⟨ds⟩ : Int) else (digitsVal ⟨ds⟩ : Int))

/-- Strip a leading `(www\d*|m|mobile)\.` (case-insensitive), the regex used
by both `extractDomain` and `domainsMatch`'s normalizer. -/
def stripWwwMobile (s : String) : String :=
  let l := jsToLower s
  if strStarts l "www" then
    let digits := ((l.data.drop 3).takeWhile Char.isDigit).length
    if strStarts (strDrop l (3 + digits)) "." then strDrop s (4 + digits) else s
  else if strStarts l "m." then strDrop s 2
  else if strStarts l "mobile." then strDrop s 7
  else s

/-- Strip a leading `[a-z]+://` scheme (case-insensitive), as in
`url.replace(/^[a-z]+:\/\//i, '')`. -/
def stripScheme (s : String) : String :=
  let l := jsToLower s
  let n := (l.data.takeWhile Char.isLower).length
  if n > 0 ∧ strStarts (strDrop l n) "://" then strDrop s (n + 3) else s

/-- Drop trailing dots, as in `domain.replace(/\.+$/, '')`. -/
def stripTrailingDots (s : String) : String :=
  ⟨(s.data.reverse.dropWhile (· = '.')).reverse⟩

/-- Drop one trailing slash, as in `d.replace(/\/$/, '')`. -/
def stripTrailingSlash (s : String) : String :=
  if strEnds s "/" then strDropRight s 1 else s

/-- `extractDomain` (serpApiPoolManager.ts:1307): scheme strip, www/mobile
strip, cut at `:`/`/`/`?`/`#`, lower-case, trim, drop trailing dots.  The
function is pure in the embedding, so the `catch` fallback is unreachable. -/
def extractDomain (url : String) : String :=
  if url = "" then ""
  else
    let d := stripScheme url
    let d := stripWwwMobile d
    let d := strTakeWhile (· ≠ ':') d
    let d := strTakeWhile (· ≠ '/') d
    let d := strTakeWhile (· ≠ '?') d
    let d := strTakeWhile (· ≠ '#') d
    let d := jsTrim (jsToLower d)
    stripTrailingDots d

/-! ### Domain matcher -/

inductive MatchType where
  | exact
  | normalized
  | main_domain
  | subdomain
  | none
  deriving DecidableEq, Repr

structure DomainMatchResult where
  matched : Bool
  matchType : MatchType
  domain1 : String
  domain2 : String
  normalizedDomain1 : Option String := Option.none
  normalizedDomain2 : Option String := Option.none
  confidence : Int
  deriving DecidableEq, Repr

/-- The normalizer local to `domainsMatch`:
`d.replace(/^(www\d*|m|mobile)\./i,'').replace(/\/$/,'').toLowerCase().trim()`. -/
def normalizeDom (d : String) : String :=
  jsTrim (jsToLower (stripTrailingSlash (stripWwwMobile d)))

/-- The singularizer local to `domainsMatch`: sequentially rewrite the
suffixes `ies -> y`, `es -> ` and `s -> ` of the whole string. -/
def singularizeDom (d : String) : String :=
  let d := if strEnds d "ies" then strDropRight d 3 ++ "y" else d
  let d := if strEnds d "es" then strDropRight d 2 else d
  if strEnds d "s" then strDropRight d 1 else d

/-- `parts.length >= 2 ? parts.slice(-2).join('.') : parts.join('.')`. -/
def getMainDomain (parts : List String) : String :=
  if parts.length ≥ 2 then joinDots (parts.drop (parts.length - 2))
  else joinDots parts

/-- `domainsMatch` (serpApiPoolManager.ts:1358): graded domain comparison. -/
def domainsMatch (domain1 domain2 : String) : DomainMatchResult :=
  if domain1 = "" ∨ domain2 = "" then
    { matched := false, matchType := .none, domain1 := domain1,
      domain2 := domain2, confidence := 0 }
  else
    let d1 := jsTrim (jsToLower domain1)
    let d2 := jsTrim (jsToLower domain2)
    if d1 = d2 then
      { matched := true, matchType := .exact, domain1 := d1, domain2 := d2,
        confidence := 100 }
    else
      let n1 := normalizeDom d1
      let n2 := normalizeDom d2
      if n1 = n2 then
        { matched := true, matchType := .normalized, domain1 := d1, domain2 := d2,
          normalizedDomain1 := some n1, normalizedDomain2 := some n2,
          confidence := 95 }
      else
        let s1 := singularizeDom n1
        let s2 := singularizeDom n2
        if s1 = s2 ∧ (s1 ≠ n1 ∨ s1 ≠ n2) then
          { matched := true, matchType := .normalized, domain1 := d1, domain2 := d2,
            normalizedDomain1 := some n1, normalizedDomain2 := some n2,
            confidence := 93 }
        else
          let main1 := getMainDomain (strSplit n1 '.')
          let main2 := getMainDomain (strSplit n2 '.')
          if main1 = main2 ∧ main1.length > 0 then
            let isSubdomain := strEnds n1 ("." ++ n2) ∨ strEnds n2 ("." ++ n1) ∨
              jsIncludes n1 ("." ++ n2) ∨ jsIncludes n2 ("." ++ n1)
            { matched := true,
              matchType := if isSubdomain then .subdomain else .main_domain,
              domain1 := d1, domain2 := d2,
              normalizedDomain1 := some n1, normalizedDomain2 := some n2,
              confidence := if isSubdomain then 85 else 90 }
          else if jsIncludes n1 n2 ∨ jsIncludes n2 n1 then
            { matched := true, matchType := .subdomain, domain1 := d1, domain2 := d2,
              normalizedDomain1 := some n1, normalizedDomain2 := some n2,
              confidence := 75 }
          else
            { matched := false, matchType := .none, domain1 := d1, domain2 := d2,
              normalizedDomain1 := some n1, normalizedDomain2 := some n2,
              confidence := 0 }

/-! ### Provider response shapes -/

/-- One entry of `organic_results` (only the fields the parser reads).
`rtype` embeds the untyped `(r as any).type` probed for `people_also_ask`. -/
structure OrganicResult where
  position : Option Int := Option.none
  link : Option String := Option.none
  title : Option String := Option.none
  snippet : Option String := Option.none
  richSnippetDescription : Option String := Option.none
  rtype : Option String := Option.none
  deriving DecidableEq, Repr

/-- A JS value that is either an array (only its length is consulted) or a
non-array object, as `local_results` can be. -/
inductive JsArrOrObj where
  | arr (len : Nat)
  | obj
  deriving DecidableEq, Repr

/-- `search_information.total_results` may be a number, a string, or absent. -/
inductive TotalResultsField where
  | num (n : Int)
  | str (s : String)
  | missing
  deriving DecidableEq, Repr

/-- A native-SERP provider response (the fields the parser reads).  The
list-valued feature blocks are embedded by their lengths, the only data the
code consults; `search_information` is embedded by its `total_results`
member. -/
structure SerpResponse where
  organic_results : Option (List OrganicResult) := Option.none
  ads : Option Nat := Option.none
  answer_box : Bool := false
  knowledge_graph : Bool := false
  local_results : Option JsArrOrObj := Option.none
  inline_images : Option Nat := Option.none
  inline_videos : Option Nat := Option.none
  related_searches : Option Nat := Option.none
  top_stories : Bool := false
  search_information : Option TotalResultsField := Option.none
  deriving DecidableEq, Repr

/-- One entry of the custom-search `items` list. -/
structure CustomItem where
  title : Option String := Option.none
  link : Option String := Option.none
  snippet : Option String := Option.none
  deriving DecidableEq, Repr

/-- A custom-search provider response; `searchInformation` is present on
every payload the parser receives (the caller rejects its absence). -/
structure CustomResponse where
  items : Option (List CustomItem) := Option.none
  totalResults : Option String := Option.none
  searchTime : Option String := Option.none
  deriving DecidableEq, Repr

/-- The search options consumed by the request builder and the parsers. -/
structure SearchOptions where
  domain : String
  country : String := "US"
  language : Option String := Option.none
  city : Option String := Option.none
  state : Option String := Option.none
  postalCode : Option String := Option.none
  device : Option String := Option.none
  searchEngine : Option String := Option.none
  maxResults : Option Int := Option.none
  verificationMode : Bool := false
  deriving Repr

/-! ### SERP feature detection -/

inductive FeatureType where
  | ads
  | featured_snippet
  | people_also_ask
  | local_pack
  | images
  | videos
  | knowledge_panel
  | related_searches
  | other
  deriving DecidableEq, Repr

structure SerpFeature where
  ftype : FeatureType
  position : Option Int := Option.none
  count : Option Nat := Option.none
  deriving DecidableEq, Repr

/-- The people-also-ask probe on an organic entry:
`r.title?.toLowerCase().includes('people also ask') || r.type === 'people_also_ask'`. -/
def isPaa (r : OrganicResult) : Bool :=
  (match r.title with
   | some t => jsIncludes (jsToLower t) "people also ask"
   | Option.none => false) || r.rtype = some "people_also_ask"

/-- `detectSerpFeatures` (serpApiPoolManager.ts:1103). -/
def detectSerpFeatures (data : SerpResponse) : List SerpFeature :=
  let f1 : List SerpFeature :=
    match data.ads with
    | some n => if n > 0 then [{ ftype := .ads, count := some n, position := some 1 }] else []
    | Option.none => []
  let f2 : List SerpFeature :=
    if data.answer_box then [{ ftype := .featured_snippet, position := some 1 }] else []
  let f3 : List SerpFeature :=
    if data.knowledge_graph then [{ ftype := .knowledge_panel }] else []
  let f4 : List SerpFeature :=
    match data.local_results with
    | some (.arr n) => [{ ftype := .local_pack, count := some n }]
    | some .obj => [{ ftype := .local_pack, count := some 1 }]
    | Option.none => []
  let f5 : List SerpFeature :=
    match data.inline_images with
    | some n => if n > 0 then [{ ftype := .images, count := some n }] else []
    | Option.none => []
  let f6 : List SerpFeature :=
    match data.inline_videos with
    | some n => if n > 0 then [{ ftype := .videos, count := some n }] else []
    | Option.none => []
  let f7 : List SerpFeature :=
    match data.related_searches with
    | some n => if n > 0 then [{ ftype := .related_searches, count := some n }] else []
    | Option.none => []
  let f8 : List SerpFeature :=
    if data.top_stories then [{ ftype := .other, count := some 1 }] else []
  let paaCount := ((data.organic_results.getD []).filter isPaa).length
  let f9 : List SerpFeature :=
    if paaCount > 0 then [{ ftype := .people_also_ask, count := some paaCount }] else []
  f1 ++ f2 ++ f3 ++ f4 ++ f5 ++ f6 ++ f7 ++ f8 ++ f9

/-- `calculateSerpFeatureOffset` (serpApiPoolManager.ts:1163): ads + answer
box + local pack + people-also-ask entries before the matched index. -/
def calculateSerpFeatureOffset (data : SerpResponse) (arrayIndex : Nat) : Int :=
  let adsOff : Int := match data.ads with
    | some n => if n > 0 then (n : Int) else 0
    | Option.none => 0
  let boxOff : Int := if data.answer_box then 1 else 0
  let localOff : Int := match data.local_results with
    | some (.arr n) => (n : Int)
    | some .obj => 3
    | Option.none => 0
  let paaOff : Int :=
    (((data.organic_results.getD []).take arrayIndex).filter isPaa).length
  adsOff + boxOff + localOff + paaOff

/-- `calculateTotalSerpResults` (serpApiPoolManager.ts:1210). -/
def calculateTotalSerpResults (data : SerpResponse) : Int :=
  let t : Int := (data.organic_results.getD []).length
  let t := t + (match data.ads with | some n => (n : Int) | Option.none => 0)
  let t := t + (match data.inline_images with | some n => (n : Int) | Option.none => 0)
  let t := t + (match data.inline_videos with | some n => (n : Int) | Option.none => 0)
  let t := t + (if data.answer_box then 1 else 0)
  let t := t + (if data.knowledge_graph then 1 else 0)
  t + (match data.local_results with
       | some (.arr n) => (n : Int)
       | some .obj => 1
       | Option.none => 0)

/-! ### Position confidence -/

inductive PositionSource where
  | serpapi_position
  | array_index_fallback
  | verified
  | unknown
  deriving DecidableEq, Repr

/-- `calculatePositionConfidence` (serpApiPoolManager.ts:1225). -/
def calculatePositionConfidence (positionSource : PositionSource) (found : Bool)
    (serpFeatures : List SerpFeature) (organicCount : Nat)
    (warnings : List String) : Int :=
  if ¬found then 0
  else
    let confidence : Int := 100
    let confidence := confidence -
      (if positionSource = .array_index_fallback then 30
       else if positionSource = .unknown then 50 else 0)
    let confidence := confidence - min ((serpFeatures.length : Int) * 5) 20
    let confidence := confidence - (if organicCount < 10 then 10 else 0)
    let confidence := confidence - min ((warnings.length : Int) * 5) 15
    max 0 confidence

/-- `parseTotalResults` (serpApiPoolManager.ts:1295):
`parseInt(totalResults.replace(/[^\d]/g, '') || '0') || 0` on strings,
numbers as-is, 0 otherwise. -/
def parseTotalResults : TotalResultsField → Int
  | .num n => n
  | .str s =>
    let ds : String := ⟨s.data.filter Char.isDigit⟩
    let ds := if ds = "" then "0" else ds
    (jsParseInt ds).getD 0
  | .missing => 0

/-- `verifyPosition` (serpApiPoolManager.ts:1258). -/
def verifyPosition (position : Option Int) (arrayIndexPosition : Option Int)
    (serpFeatures : List SerpFeature) :
    Option Int × Option Int × Option String :=
  if ¬(truthyInt position ∧ truthyInt arrayIndexPosition) then
    (position, Option.none, Option.none)
  else
    let p := position.getD 0
    let a := arrayIndexPosition.getD 0
    let discrepancy := |p - a|
    let expected := serpFeatures.foldl
      (fun sum f =>
        if f.ftype = .ads then sum + ((f.count.getD 1 : Nat) : Int)
        else if f.ftype = .featured_snippet then sum + 1
        else if f.ftype = .local_pack then sum + 1
        else sum) 0
    if discrepancy ≤ expected + 2 then (position, some discrepancy, Option.none)
    else (position, some discrepancy,
      some ("Significant position discrepancy: " ++ toString discrepancy ++
        " positions difference (expected ~" ++ toString expected ++
        " based on SERP features)"))

/-! ### Native-SERP best-match scan (serpApiPoolManager.ts:735) -/

structure BestMatch where
  result : OrganicResult
  index : Nat
  domainMatch : DomainMatchResult
  deriving DecidableEq, Repr

/-- The replacement condition of the scan loop: no best yet, strictly higher
confidence, or equal confidence where the new result carries a (truthy)
`position` and the current best does not. -/
def shouldReplace (best : Option BestMatch) (r : OrganicResult)
    (dm : DomainMatchResult) : Bool :=
  match best with
  | Option.none => true
  | some b =>
    dm.confidence > b.domainMatch.confidence ∨
      (dm.confidence = b.domainMatch.confidence ∧
        truthyInt r.position ∧ ¬ truthyInt b.result.position)

/-- The loop body of the organic-result scan: results without a (truthy)
link are skipped; matched results may replace the running best; an exact
match with `position && position > 0` breaks out of the loop. -/
def findBestMatch (target : String) : List OrganicResult → Nat →
    Option BestMatch → Option BestMatch
  | [], _, best => best
  | r :: rest, i, best =>
    if ¬ truthyStr r.link then findBestMatch target rest (i + 1) best
    else
      let dm := domainsMatch (extractDomain (r.link.getD "")) target
      if dm.matched then
        let best' := if shouldReplace best r dm then some ⟨r, i, dm⟩ else best
        if dm.matchType = .exact ∧ truthyInt r.position ∧ posPositive r.position
        then best'
        else findBestMatch target rest (i + 1) best'
      else findBestMatch target rest (i + 1) best

/-! ### Native-SERP parser (serpApiPoolManager.ts:659) -/

/-- The outcome of the position-extraction stage of `parseSearchResults`
(everything up to and including the warning pushes, before the confidence
call at line 853). -/
structure ScanOutcome where
  position : Option Int
  positionSource : PositionSource
  found : Bool
  arrayIndexPosition : Option Int
  url : String
  title : String
  description : String
  warnings : List String
  deriving Repr

/-- Position extraction of `parseSearchResults`: pick the best match, then
either trust its provider `position` field (warning when it strays more than
3 from the one-based array index) or fall back to array index plus the SERP
feature offset (always a warning). -/
def nativeScan (data : SerpResponse) (options : SearchOptions) : ScanOutcome :=
  let organicResults := data.organic_results.getD []
  let cleanDomain := extractDomain options.domain
  match findBestMatch cleanDomain organicResults 0 Option.none with
  | Option.none =>
    { position := Option.none, positionSource := .unknown, found := false,
      arrayIndexPosition := Option.none, url := "", title := "",
      description := "", warnings := [] }
  | some bm =>
    let arrayIndexPosition : Int := bm.index + 1
    let url := bm.result.link.getD ""
    let title := bm.result.title.getD ""
    let description :=
      if truthyStr bm.result.snippet then bm.result.snippet.getD ""
      else if truthyStr bm.result.richSnippetDescription then
        bm.result.richSnippetDescription.getD ""
      else ""
    if truthyInt bm.result.position ∧ posPositive bm.result.position then
      let p := bm.result.position.getD 0
      let warnings :=
        if |p - arrayIndexPosition| > 3 then
          ["Large discrepancy: SerpAPI position " ++ toString p ++
            " vs array index " ++ toString arrayIndexPosition ++
            ". This indicates SERP features affecting position."]
        else []
      { position := some p, positionSource := .serpapi_position, found := true,
        arrayIndexPosition := some arrayIndexPosition, url := url,
        title := title, description := description, warnings := warnings }
    else
      let offset := calculateSerpFeatureOffset data bm.index
      let adjusted := arrayIndexPosition + offset
      { position := some adjusted, positionSource := .array_index_fallback,
        found := true, arrayIndexPosition := some arrayIndexPosition,
        url := url, title := title, description := description,
        warnings := ["SerpAPI position field missing. Using array index " ++
          toString arrayIndexPosition ++ " + SERP feature offset " ++
          toString offset ++ " = estimated position " ++ toString adjusted ++ "."] }

structure PositionValidation where
  originalPosition : Option Int
  verifiedPosition : Option (Option Int) := Option.none
  positionSource : PositionSource
  confidence : Int
  discrepancy : Option Int := Option.none
  serpFeatures : List SerpFeature
  organicResultsCount : Nat
  totalResultsInSerp : Int
  validationMethod : String
  warnings : List String
  arrayIndexPosition : Option Int
  deriving Repr

structure Competitor where
  position : Option Int
  url : String
  domain : String
  title : String
  deriving Repr

/-- The canonical ranking record (the fields of `ISearchResult` that the
core computes; timestamps, the raw-payload echo and the metadata echo are
omitted). -/
structure SearchResult where
  keyword : String
  domain : String
  position : Option Int
  url : String
  title : String
  description : String
  totalResults : Option Int
  searchedResults : Nat
  found : Bool
  positionValidation : PositionValidation
  competitorUrls : List Competitor
  positionReliability : String
  deriving Repr

/-- `parseSearchResults` (serpApiPoolManager.ts:659): scan, confidence,
validation sub-record, optional verification pass, competitors, quality. -/
def parseSearchResults (keyword : String) (data : SerpResponse)
    (options : SearchOptions) : SearchResult :=
  let organicResults := data.organic_results.getD []
  let serpFeatures := detectSerpFeatures data
  let sc := nativeScan data options
  let confidence := calculatePositionConfidence sc.positionSource sc.found
    serpFeatures organicResults.length sc.warnings
  let validation : PositionValidation :=
    { originalPosition := sc.position, positionSource := sc.positionSource,
      confidence := confidence, serpFeatures := serpFeatures,
      organicResultsCount := organicResults.length,
      totalResultsInSerp := calculateTotalSerpResults data,
      validationMethod :=
        if sc.positionSource = .serpapi_position then "serpapi_trusted"
        else if sc.positionSource = .array_index_fallback then "fallback_used"
        else "unverified",
      warnings := sc.warnings, arrayIndexPosition := sc.arrayIndexPosition }
  let validation :=
    if options.verificationMode ∧ sc.found ∧ truthyInt sc.position then
      let (vp, disc, warn) :=
        verifyPosition sc.position sc.arrayIndexPosition serpFeatures
      { validation with
        verifiedPosition := some vp,
        discrepancy := disc,
        warnings := validation.warnings ++
          (match warn with | some w => [w] | Option.none => []) }
    else validation
  let competitorUrls :=
    ((organicResults.take 10).filter
      (fun r => truthyStr r.link ∧ truthyInt r.position)).map
      (fun r => { position := r.position, url := r.link.getD "",
                  domain := extractDomain (r.link.getD ""),
                  title := r.title.getD "" })
  { keyword := jsTrim keyword, domain := options.domain,
    position := sc.position, url := sc.url, title := sc.title,
    description := sc.description,
    totalResults := some (parseTotalResults (data.search_information.getD .missing)),
    searchedResults := organicResults.length, found := sc.found,
    positionValidation := validation, competitorUrls := competitorUrls,
    positionReliability :=
      if confidence ≥ 90 then "high" else if confidence ≥ 70 then "medium"
      else "low" }

/-! ### Custom-search parser (serpApiPoolManager.ts:949) -/

/-- The item scan of `parseGoogleCustomSearchResults`: first matched item
wins (`break` on the first match). -/
def customFindFirst (target : String) : List CustomItem → Nat →
    Option (CustomItem × Nat × DomainMatchResult)
  | [], _ => Option.none
  | it :: rest, i =>
    if truthyStr it.link then
      let dm := domainsMatch (extractDomain (it.link.getD "")) target
      if dm.matched then some (it, i, dm) else customFindFirst target rest (i + 1)
    else customFindFirst target rest (i + 1)

/-- `parseGoogleCustomSearchResults` (serpApiPoolManager.ts:949): position
is array index + 1, source `array_index_fallback`, and the record's
confidence is taken directly from the domain-match confidence. -/
def parseGoogleCustomSearchResults (keyword : String) (data : CustomResponse)
    (options : SearchOptions) : SearchResult :=
  let items := data.items.getD []
  let cleanDomain := extractDomain options.domain
  let bestMatch := customFindFirst cleanDomain items 0
  let found := bestMatch.isSome
  let position : Option Int :=
    match bestMatch with
    | some (_, i, _) => some ((i : Int) + 1)
    | Option.none => Option.none
  let positionSource : PositionSource :=
    if found then .array_index_fallback else .unknown
  let confidence : Int :=
    match bestMatch with
    | some (_, _, dm) => dm.confidence
    | Option.none => 0
  let url := match bestMatch with
    | some (it, _, _) => it.link.getD ""
    | Option.none => ""
  let title := match bestMatch with
    | some (it, _, _) => it.title.getD ""
    | Option.none => ""
  let description := match bestMatch with
    | some (it, _, _) => it.snippet.getD ""
    | Option.none => ""
  let arrayIndexPosition : Option Int :=
    match bestMatch with
    | some (_, i, _) => some ((i : Int) + 1)
    | Option.none => Option.none
  let validation : PositionValidation :=
    { originalPosition := position, positionSource := positionSource,
      confidence := confidence, serpFeatures := [],
      organicResultsCount := items.length,
      totalResultsInSerp := items.length,
      validationMethod := "fallback_used", warnings := [],
      arrayIndexPosition := arrayIndexPosition }
  let competitorUrls :=
    (items.take 10).enum.map
      (fun p => { position := some ((p.1 : Int) + 1), url := p.2.link.getD "",
                  domain := extractDomain (p.2.link.getD ""),
                  title := p.2.title.getD "" })
  { keyword := jsTrim keyword, domain := options.domain, position := position,
    url := url, title := title, description := description,
    totalResults := jsParseInt
      (if truthyStr data.totalResults then data.totalResults.getD "" else "0"),
    searchedResults := items.length, found := found,
    positionValidation := validation, competitorUrls := competitorUrls,
    positionReliability :=
      if confidence ≥ 90 then "high" else if confidence ≥ 70 then "medium"
      else "low" }

/-! ### Request building (serpApiPoolManager.ts:356) -/

/-- The fixed query parameters of a native-SERP request, as assembled by the
`URLSearchParams` constructor in `makeSerpApiRequest` (the location string,
postal code and custom parameters are appended afterwards and never touch
these fields). -/
structure SerpRequestParams where
  engine : String
  q : String
  api_key : String
  gl : String
  hl : String
  num : String
  start : String
  device : String
  safe : String
  filter : String
  no_cache : String
  deriving DecidableEq, Repr

/-- JS `opt || dflt` on an optional number. -/
def jsOrInt (o : Option Int) (dflt : Int) : Int :=
  match o with
  | some n => if n ≠ 0 then n else dflt
  | Option.none => dflt

/-- JS `opt || dflt` on an optional string. -/
def jsOrStr (o : Option String) (dflt : String) : String :=
  match o with
  | some s => if s ≠ "" then s else dflt
  | Option.none => dflt

/-- `makeSerpApiRequest`'s parameter record (serpApiPoolManager.ts:357). -/
def makeSerpApiRequestParams (key : String) (keyword : String)
    (options : SearchOptions) : SerpRequestParams :=
  { engine := jsOrStr options.searchEngine "google",
    q := jsTrim keyword,
    api_key := key,
    gl := jsToLower options.country,
    hl := jsOrStr options.language "en",
    num := toString (jsOrInt options.maxResults 120),
    start := "0",
    device := jsOrStr options.device "desktop",
    safe := "off",
    filter := "0",
    no_cache := "true" }

/-! ### Credential pool (serpApiPoolManager.ts:32, 240, 307, 1499) -/

inductive KeyStatus where
  | active
  | exhausted
  | paused
  | error
  deriving DecidableEq, Repr

inductive Provider where
  | serpapi
  | google_custom_search
  deriving DecidableEq, Repr

/-- An in-memory credential (`ISerpApiKey`); the float-valued EWMA
success-rate and the timestamps are outside the integer model and are not
read by any embedded operation. -/
structure ApiKey where
  id : String
  provider : Provider := .serpapi
  usedToday : Nat := 0
  usedThisMonth : Nat := 0
  dailyLimit : Nat := 5000
  monthlyLimit : Nat := 100000
  status : KeyStatus := .active
  priority : Nat := 1
  errorCount : Nat := 0
  deriving DecidableEq, Repr

inductive RotationStrategy where
  | priority
  | least_used
  | round_robin
  deriving DecidableEq, Repr

/-- The pool manager's mutable state: credential list, rotation strategy and
cursor, and the in-flight lock set (`keyUsageLock`). -/
structure PoolState where
  apiKeys : List ApiKey
  rotationStrategy : RotationStrategy := .priority
  currentKeyIndex : Nat := 0
  locks : List String := []
  deriving DecidableEq, Repr

/-- First element minimizing `f` (what `sort((a,b) => f a - f b)[0]` returns,
JS sort being stable). -/
def minByFirst (f : ApiKey → Nat) : List ApiKey → Option ApiKey
  | [] => Option.none
  | k :: ks =>
    match minByFirst f ks with
    | Option.none => some k
    | some b => if f k ≤ f b then some k else some b

/-- `getNextAvailableKey` (serpApiPoolManager.ts:307): filter the available
credentials, then pick by strategy.  Returns the (possibly updated, for
round-robin) pool state alongside the choice; when nothing is available the
state is unchanged. -/
def getNextAvailableKey (pool : PoolState) (provider : Provider) :
    Option ApiKey × PoolState :=
  let availableKeys := pool.apiKeys.filter (fun k =>
    k.status = .active ∧ k.provider = provider ∧
    k.usedToday < k.dailyLimit ∧ k.usedThisMonth < k.monthlyLimit ∧
    ¬ pool.locks.contains k.id)
  match availableKeys with
  | [] => (Option.none, pool)
  | k0 :: _ =>
    match pool.rotationStrategy with
    | .priority => (minByFirst (·.priority) availableKeys, pool)
    | .least_used => (minByFirst (·.usedToday) availableKeys, pool)
    | .round_robin =>
      (some (availableKeys.getD (pool.currentKeyIndex % availableKeys.length) k0),
       { pool with currentKeyIndex := (pool.currentKeyIndex + 1) % availableKeys.length })

/-- Apply `f` to the credential with the given id (the in-memory mutation
pattern `this.apiKeys.find(k => k.id === keyId)`). -/
def mutateKey (id : String) (f : ApiKey → ApiKey) (pool : PoolState) : PoolState :=
  { pool with apiKeys := pool.apiKeys.map (fun k => if k.id = id then f k else k) }

/-- `updateKeyUsage` (serpApiPoolManager.ts:1499), integer part: counters on
success, error count on failure, and the daily-limit exhaustion check that
runs on both paths. -/
def updateKeyUsage (id : String) (success : Bool) (pool : PoolState) : PoolState :=
  mutateKey id (fun k =>
    let k := if success then
        { k with usedToday := k.usedToday + 1, usedThisMonth := k.usedThisMonth + 1 }
      else { k with errorCount := k.errorCount + 1 }
    if k.usedToday ≥ k.dailyLimit then { k with status := .exhausted } else k) pool

/-- `markKeyExhausted` (serpApiPoolManager.ts:1550). -/
def markKeyExhausted (id : String) (pool : PoolState) : PoolState :=
  match pool.apiKeys.find? (fun k => k.id = id) with
  | some k =>
    if k.status ≠ .exhausted then
      updateKeyUsage id false (mutateKey id (fun k => { k with status := .exhausted }) pool)
    else pool
  | Option.none => pool

/-- `pauseKey` (serpApiPoolManager.ts:1559); the 60-second resume timer is a
real-time effect outside the state model. -/
def pauseKey (id : String) (pool : PoolState) : PoolState :=
  mutateKey id (fun k => { k with status := .paused }) pool

/-- `isQuotaExceeded` (serpApiPoolManager.ts:1584): message sniffing. -/
def isQuotaExceeded (message : String) : Bool :=
  let m := jsToLower message
  jsIncludes m "quota" || jsIncludes m "limit" || jsIncludes m "exceeded" ||
    jsIncludes m "usage limit" || jsIncludes m "monthly searches used up" ||
    jsIncludes m "daily searches used up"

/-- `isRateLimited` (serpApiPoolManager.ts:1594): message sniffing. -/
def isRateLimited (message : String) : Bool :=
  let m := jsToLower message
  jsIncludes m "rate" || jsIncludes m "too many" || jsIncludes m "429" ||
    jsIncludes m "rate limit" || jsIncludes m "requests per second"

inductive ErrorKind where
  | invalid_request
  | unauthorized
  | quota_exceeded
  | rate_limited
  | timeout
  | network_error
  | parse_error
  | unknown
  deriving DecidableEq, Repr

/-- What one execution of `makeRequest` produces, abstracting the HTTP
round-trip: success, or a `SerpApiError` with its kind tag and message. -/
inductive Outcome where
  | ok
  | fail (kind : ErrorKind) (message : String)
  deriving DecidableEq, Repr

/-- The result of the pool path of `trackKeyword`. -/
inductive TrackResult where
  | ok (keyId : String)
  | allExhausted
  | retriesFailed (lastError : Option (ErrorKind × String))
  deriving DecidableEq, Repr

/-- The `catch` block of `trackKeyword` (serpApiPoolManager.ts:281): the
pool update after a failed attempt is chosen by message sniffing, never by
the error's kind tag. -/
def failureUpdate (id : String) (message : String) (pool : PoolState) : PoolState :=
  if isQuotaExceeded message then markKeyExhausted id pool
  else if isRateLimited message then pauseKey id pool
  else updateKeyUsage id false pool

/-- Remove a credential id from the in-flight lock set. -/
def releaseLock (id : String) (pool : PoolState) : PoolState :=
  { pool with locks := pool.locks.filter (· ≠ id) }

/-- The retry loop of `trackKeyword` (serpApiPoolManager.ts:245).  `fuel` is
the remaining attempt count, `callIdx` numbers the outbound requests and the
`oracle` supplies each request's outcome. -/
def trackLoop (oracle : Nat → Outcome) : Nat → Nat → PoolState →
    Option (ErrorKind × String) → TrackResult × PoolState
  | 0, _, pool, lastError => (.retriesFailed lastError, pool)
  | fuel + 1, callIdx, pool, lastError =>
    match getNextAvailableKey pool .serpapi with
    | (Option.none, pool') => (.allExhausted, pool')
    | (some k, pool') =>
      if pool'.locks.contains k.id then trackLoop oracle fuel callIdx pool' lastError
      else
        let locked := { pool' with locks := k.id :: pool'.locks }
        match oracle callIdx with
        | .ok =>
          (.ok k.id, releaseLock k.id (updateKeyUsage k.id true locked))
        | .fail kind message =>
          trackLoop oracle fuel (callIdx + 1)
            (releaseLock k.id (failureUpdate k.id message locked))
            (some (kind, message))

/-- The pool path of `trackKeyword`: up to
`min(pool size, configured max retries)` attempts. -/
def trackKeywordPool (oracle : Nat → Outcome) (cfgMaxRetries : Nat)
    (pool : PoolState) : TrackResult × PoolState :=
  trackLoop oracle (min pool.apiKeys.length cfgMaxRetries) 0 pool Option.none

/-- `resetDailyUsage` (serpApiPoolManager.ts:1710), in-memory part: a
credential is touched only when it has usage or is exhausted; touched
credentials are zeroed and set `active`. -/
def resetDailyUsage (pool : PoolState) : PoolState :=
  { pool with apiKeys := pool.apiKeys.map (fun k =>
      if k.usedToday > 0 ∨ k.status = .exhausted then
        { k with usedToday := 0, status := .active, errorCount := 0 }
      else k) }

/-! ## Helper lemmas -/

example : (domainsMatch "blog.example.com" "example.com").matchType = .subdomain := by decide
example : (domainsMatch "www.example.com" "example.com").confidence = 95 := by decide
example : (domainsMatch "example.cats" "example.cat").confidence = 93 := by decide
example : extractDomain "https://WWW.Example.com/a?b#c" = "example.com" := by decide

example :
    (parseSearchResults "kw"
      { organic_results := some
          [{ position := some 3, link := some "https://www.example.com/a" },
           { position := some 1, link := some "https://other.com" }] }
      { domain := "example.com" }).position = some 3 := by decide

example :
    (parseSearchResults "kw"
      { organic_results := some
          [{ position := some 3, link := some "https://www.example.com/a" },
           { position := some 1, link := some "https://other.com" }] }
      { domain := "example.com" }).positionValidation.positionSource
    = .serpapi_position := by decide

/-- Every branch of the domain matcher either reports a match at one of the
six positive grades or reports no match at confidence 0. -/
theorem domainsMatch_grades_cases (a b : String) :
    ((domainsMatch a b).matched = true ∧
      ((domainsMatch a b).confidence = 75 ∨ (domainsMatch a b).confidence = 85 ∨
       (domainsMatch a b).confidence = 90 ∨ (domainsMatch a b).confidence = 93 ∨
       (domainsMatch a b).confidence = 95 ∨ (domainsMatch a b).confidence = 100))
    ∨ ((domainsMatch a b).matched = false ∧ (domainsMatch a b).confidence = 0) := by
  unfold domainsMatch
  repeat' split_ifs <;> simp_all

/-- An exact-graded comparison is a match. -/
theorem domainsMatch_exact_matched (a b : String)
    (h : (domainsMatch a b).matchType = .exact) : (domainsMatch a b).matched = true := by
  unfold domainsMatch at *
  repeat' split_ifs at * <;> simp_all

/-- A matched comparison has a confidence in (0, 100]. -/
theorem domainsMatch_matched_conf_bounds (a b : String)
    (h : (domainsMatch a b).matched = true) :
    0 < (domainsMatch a b).confidence ∧ (domainsMatch a b).confidence ≤ 100 := by
  rcases domainsMatch_grades_cases a b with ⟨_, hc⟩ | ⟨hm, _⟩
  · rcases hc with h | h | h | h | h | h <;> rw [h] <;> omega
  · rw [h] at hm; cases hm

/-- A matched comparison has a nonnegative confidence. -/
theorem domainsMatch_conf_nonneg (a b : String) :
    0 ≤ (domainsMatch a b).confidence := by
  rcases domainsMatch_grades_cases a b with ⟨_, hc⟩ | ⟨_, hc⟩
  · rcases hc with h | h | h | h | h | h <;> rw [h] <;> omega
  · rw [hc]

/-! ## Claims -/

/-- C10: for every pair of input strings, the domain matcher's confidence is
one of the fixed grades 0, 75, 85, 90, 93, 95, 100, and its matched flag is
true exactly when the confidence is positive. -/
theorem domainsMatch_grades_and_matched (a b : String) :
    ((domainsMatch a b).confidence = 0 ∨ (domainsMatch a b).confidence = 75 ∨
     (domainsMatch a b).confidence = 85 ∨ (domainsMatch a b).confidence = 90 ∨
     (domainsMatch a b).confidence = 93 ∨ (domainsMatch a b).confidence = 95 ∨
     (domainsMatch a b).confidence = 100) ∧
    ((domainsMatch a b).matched = true ↔ 0 < (domainsMatch a b).confidence) := by
  rcases domainsMatch_grades_cases a b with ⟨hm, hc⟩ | ⟨hm, hc⟩
  · refine ⟨by tauto, hm ▸ ?_⟩
    rcases hc with h | h | h | h | h | h <;> rw [h] <;> simp
  · exact ⟨Or.inl hc, by rw [hm, hc]; simp⟩

/-- C6 counterexample: `match("companies.co", "company.co")` does not return
the singularized-normalized grade (confidence 93); the singularization pass
operates on the whole host string including the top-level domain, so this
pair falls through every rung and yields no match at confidence 0. -/
theorem domainsMatch_companies_not_93 :
    ¬ ((domainsMatch "companies.co" "company.co").matchType = .normalized ∧
       (domainsMatch "companies.co" "company.co").confidence = 93) ∧
    (domainsMatch "companies.co" "company.co").matchType = .none ∧
    (domainsMatch "companies.co" "company.co").confidence = 0 ∧
    (domainsMatch "companies.co" "company.co").matched = false := by decide

/-- C6 amended: the first two grades of scenario S6 hold
(`blog.example.com` vs `example.com` is a subdomain match at 85,
`www.example.com` vs `example.com` is a normalized match at 95), but
`companies.co` vs `company.co` is no match at confidence 0, because the
singularization pass rewrites suffixes of the whole host string (including
the TLD) and therefore never fires on this pair. -/
theorem domainsMatch_s6_grades :
    (domainsMatch "blog.example.com" "example.com").matchType = .subdomain ∧
    (domainsMatch "blog.example.com" "example.com").confidence = 85 ∧
    (domainsMatch "www.example.com" "example.com").matchType = .normalized ∧
    (domainsMatch "www.example.com" "example.com").confidence = 95 ∧
    (domainsMatch "companies.co" "company.co").matchType = .none ∧
    (domainsMatch "companies.co" "company.co").confidence = 0 := by decide

/-- C5 counterexample: a native-SERP request built without a caller-supplied
max-results carries `num = "120"`, not `"100"`. -/
theorem serpRequest_num_default_not_100 :
    (makeSerpApiRequestParams "secret" "kw"
      { domain := "example.com", country := "US" }).num = "120" ∧
    (makeSerpApiRequestParams "secret" "kw"
      { domain := "example.com", country := "US" }).num ≠ "100" := by decide

/-- C5 amended: for every native-SERP lookup where the caller does not
supply max-results, the request is built with the default max-results value
120 as its `num` parameter. -/
theorem serpRequest_num_default (key keyword : String) (options : SearchOptions)
    (h : options.maxResults = Option.none) :
    (makeSerpApiRequestParams key keyword options).num = "120" := by
  simp only [makeSerpApiRequestParams, jsOrInt, h]
  decide

/-- Witness for `serpRequest_num_default`. -/
theorem serpRequest_num_default_witness :
    ({ domain := "example.com", country := "US" } : SearchOptions).maxResults
      = Option.none ∧
    (makeSerpApiRequestParams "secret" "kw"
      { domain := "example.com", country := "US" }).num = "120" :=
  ⟨by decide, serpRequest_num_default "secret" "kw"
    { domain := "example.com", country := "US" } (by decide)⟩

/-- Spec-side reading of total-results parsing (from the claim's words):
the value of the first run of digits in the string, numbers as-is, 0 when
missing. -/
def specParseTotalResults : TotalResultsField → Int
  | .num n => n
  | .str s =>
    (digitsVal ⟨(s.data.dropWhile (fun c => ¬ c.isDigit)).takeWhile Char.isDigit⟩ : Int)
  | .missing => 0

/-- Amended reading of total-results parsing: the string field is parsed
with every non-digit character removed, i.e. all digit runs concatenated. -/
def amendedParseTotalResults : TotalResultsField → Int
  | .num n => n
  | .str s => (digitsVal ⟨s.data.filter Char.isDigit⟩ : Int)
  | .missing => 0

/-- C4 counterexample: on `"About 1,240,000 results"` the code concatenates
every digit run (1240000); the first run of digits alone is just 1. -/
theorem parseTotalResults_not_first_run :
    parseTotalResults (.str "About 1,240,000 results") = 1240000 ∧
    specParseTotalResults (.str "About 1,240,000 results") = 1 ∧
    parseTotalResults (.str "About 1,240,000 results") ≠
      specParseTotalResults (.str "About 1,240,000 results") := by decide

/-- A digit is not whitespace. -/
theorem digit_not_ws (c : Char) (h : c.isDigit = true) : c.isWhitespace = false := by
  by_contra hw
  rw [Bool.not_eq_false] at hw
  simp only [Char.isWhitespace, Bool.or_eq_true, decide_eq_true_eq] at hw
  rcases hw with (((rfl | rfl) | rfl) | rfl) <;> exact absurd h (by decide)

/-- `takeWhile` keeps a list all of whose elements satisfy the predicate. -/
theorem takeWhile_of_all {p : Char → Bool} :
    ∀ l : List Char, (∀ c ∈ l, p c = true) → l.takeWhile p = l := by
  intro l h
  induction l with
  | nil => rfl
  | cons c t ih =>
    rw [List.takeWhile_cons, h c (by simp)]
    simp [ih (fun x hx => h x (by simp [hx]))]

/-- JS `parseInt` on a non-empty all-digit string returns its value. -/
theorem jsParseInt_all_digits (l : List Char) (h1 : l ≠ [])
    (h2 : ∀ c ∈ l, c.isDigit = true) :
    jsParseInt ⟨l⟩ = some ((digitsVal ⟨l⟩ : Nat) : Int) := by
  obtain ⟨c, t, rfl⟩ := List.exists_cons_of_ne_nil h1
  have hc : c.isDigit = true := h2 c (by simp)
  have hws : c.isWhitespace = false := digit_not_ws c hc
  have hminus : ('-' == c) = false := by
    rcases hbe : ('-' == c) with _ | _
    · rfl
    · exact absurd (beq_iff_eq.mp hbe ▸ hc) (by decide)
  have hplus : ('+' == c) = false := by
    rcases hbe : ('+' == c) with _ | _
    · rfl
    · exact absurd (beq_iff_eq.mp hbe ▸ hc) (by decide)
  unfold jsParseInt
  rw [show ((⟨c :: t⟩ : String).data) = c :: t from rfl, List.dropWhile_cons, hws]
  simp only [Bool.false_eq_true, if_false, List.isPrefixOf, hminus, Bool.false_and,
    hplus]
  rw [takeWhile_of_all (c :: t) h2]
  simp

/-- C4 amended: the record's total-results value is obtained by deleting
every non-digit character of the provider's `total_results` string and
parsing the remaining digits (so `"About 1,240,000 results"` parses to
1240000); 0 when the field is missing; numeric fields are taken as-is. -/
theorem parseTotalResults_amended :
    (∀ tf, parseTotalResults tf = amendedParseTotalResults tf) ∧
    (∀ keyword data options,
      (parseSearchResults keyword data options).totalResults =
        some (amendedParseTotalResults (data.search_information.getD .missing))) := by
  have hmain : ∀ tf, parseTotalResults tf = amendedParseTotalResults tf := by
    intro tf
    match tf with
    | .num n => rfl
    | .missing => rfl
    | .str s =>
      show (let ds : String := ⟨s.data.filter Char.isDigit⟩
            let ds := if ds = "" then "0" else ds
            (jsParseInt ds).getD 0) = _
      by_cases hfl : s.data.filter Char.isDigit = []
      · simp only [hfl]
        norm_num [amendedParseTotalResults, hfl]
        decide
      · simp only [amendedParseTotalResults]
        have hne : (⟨s.data.filter Char.isDigit⟩ : String) ≠ "" := by
          intro hcon
          exact hfl (congrArg String.data hcon)
        rw [if_neg hne, jsParseInt_all_digits _ hfl
          (fun c hcm => (List.mem_filter.mp hcm).2)]
        rfl
  exact ⟨hmain, fun keyword data options => by
    simp only [parseSearchResults, hmain]⟩

/-- C9 counterexample: after `reset_daily_all`, a credential in status
`error` with no usage keeps its status and error count (the claim requires
status `active` and a cleared error count), and a paused credential with
usage is flipped to `active` (the claim requires it to remain paused). -/
theorem resetDailyUsage_counterexample :
    ((resetDailyUsage { apiKeys := [
        { id := "k1", status := .error, errorCount := 7 },
        { id := "k2", status := .paused, usedToday := 5 }] }).apiKeys.map
      (fun k => (k.status, k.errorCount, k.usedToday)))
      = [(.error, 7, 0), (.active, 0, 0)] := by decide

/-- C9 amended: `reset_daily_all` touches exactly the credentials that have
daily usage or are in status `exhausted`; a touched credential gets
`used_today = 0`, `error_count = 0` and status `active` (even if it was
paused), and every other credential (including paused or errored ones with
no usage) is left unchanged. -/
theorem resetDailyUsage_characterization (pool : PoolState) (i : Nat) (k : ApiKey)
    (h : pool.apiKeys[i]? = some k) :
    ((k.usedToday > 0 ∨ k.status = .exhausted) →
      (resetDailyUsage pool).apiKeys[i]? =
        some { k with usedToday := 0, status := .active, errorCount := 0 }) ∧
    (k.usedToday = 0 ∧ k.status ≠ .exhausted →
      (resetDailyUsage pool).apiKeys[i]? = some k) := by
  unfold resetDailyUsage
  simp only [List.getElem?_map, h, Option.map_some']
  constructor
  · intro hc
    rw [if_pos hc]
  · rintro ⟨h1, h2⟩
    rw [if_neg]
    simp [h1, h2]

/-- Witness for `resetDailyUsage_characterization`. -/
theorem resetDailyUsage_characterization_witness :
    (({ apiKeys := [{ id := "k1", status := .exhausted, usedToday := 3 }] } :
        PoolState).apiKeys[0]? =
      some { id := "k1", status := .exhausted, usedToday := 3 }) ∧
    ((((3 : Nat) > 0 ∨
        ({ id := "k1", status := .exhausted, usedToday := 3 } : ApiKey).status
          = .exhausted) →
      (resetDailyUsage { apiKeys :=
          [{ id := "k1", status := .exhausted, usedToday := 3 }] }).apiKeys[0]? =
        some { id := "k1", status := .active, usedToday := 0 }) ∧
    (((3 : Nat) = 0 ∧
        ({ id := "k1", status := .exhausted, usedToday := 3 } : ApiKey).status
          ≠ .exhausted) →
      (resetDailyUsage { apiKeys :=
          [{ id := "k1", status := .exhausted, usedToday := 3 }] }).apiKeys[0]? =
        some { id := "k1", status := .exhausted, usedToday := 3 })) :=
  ⟨by decide,
    resetDailyUsage_characterization
      { apiKeys := [{ id := "k1", status := .exhausted, usedToday := 3 }] } 0
      { id := "k1", status := .exhausted, usedToday := 3 } (by decide)⟩

/-- A `minByFirst` over a non-empty list yields a value. -/
theorem minByFirst_ne_none (f : ApiKey → Nat) (k : ApiKey) (ks : List ApiKey) :
    minByFirst f (k :: ks) ≠ Option.none := by
  unfold minByFirst
  repeat' split <;> simp

/-- When the selection comes back empty the pool state is untouched. -/
theorem getNextAvailableKey_none (pool : PoolState) (p : Provider)
    (h : (getNextAvailableKey pool p).1 = Option.none) :
    getNextAvailableKey pool p = (Option.none, pool) := by
  unfold getNextAvailableKey at *
  rcases hav : pool.apiKeys.filter (fun k =>
      k.status = .active ∧ k.provider = p ∧
      k.usedToday < k.dailyLimit ∧ k.usedThisMonth < k.monthlyLimit ∧
      ¬ pool.locks.contains k.id) with _ | ⟨k0, ks⟩
  · simp only [hav]
  · rw [hav] at h
    simp only [] at h
    rcases hstrat : pool.rotationStrategy with _ | _ | _ <;> rw [hstrat] at h
    · exact absurd h (minByFirst_ne_none _ k0 ks)
    · exact absurd h (minByFirst_ne_none _ k0 ks)
    · simp at h

/-- C8: when the first selection finds no available credential (and the
retry budget admits at least one attempt), the pool path fails with the
all-exhausted error and no other kind. -/
theorem trackKeyword_allExhausted (pool : PoolState) (cfg : Nat)
    (oracle : Nat → Outcome)
    (hsel : (getNextAvailableKey pool .serpapi).1 = Option.none)
    (hfuel : 1 ≤ min pool.apiKeys.length cfg) :
    (trackKeywordPool oracle cfg pool).1 = .allExhausted := by
  unfold trackKeywordPool
  obtain ⟨m, hm⟩ : ∃ m, min pool.apiKeys.length cfg = m + 1 :=
    ⟨min pool.apiKeys.length cfg - 1, by omega⟩
  rw [hm]
  rw [show trackLoop oracle (m + 1) 0 pool Option.none =
    (match getNextAvailableKey pool .serpapi with
     | (Option.none, pool') => (.allExhausted, pool')
     | (some k, pool') =>
       if pool'.locks.contains k.id then trackLoop oracle m 0 pool' Option.none
       else
         let locked := { pool' with locks := k.id :: pool'.locks }
         match oracle 0 with
         | .ok => (.ok k.id, releaseLock k.id (updateKeyUsage k.id true locked))
         | .fail kind message =>
           trackLoop oracle m 1
             (releaseLock k.id (failureUpdate k.id message locked))
             (some (kind, message))) from rfl]
  rw [getNextAvailableKey_none pool .serpapi hsel]

/-- The confidence of a found record is always in (0, 100]: the penalties
are capped at 50 + 20 + 10 + 15. -/
theorem calculatePositionConfidence_found_bounds (src : PositionSource)
    (fs : List SerpFeature) (cnt : Nat) (ws : List String) :
    0 < calculatePositionConfidence src true fs cnt ws ∧
      calculatePositionConfidence src true fs cnt ws ≤ 100 := by
  unfold calculatePositionConfidence
  have h1a : (0 : Int) ≤ min ((fs.length : Int) * 5) 20 :=
    le_min (by positivity) (by norm_num)
  have h1b : min ((fs.length : Int) * 5) 20 ≤ 20 := min_le_right _ _
  have h2a : (0 : Int) ≤ min ((ws.length : Int) * 5) 15 :=
    le_min (by positivity) (by norm_num)
  have h2b : min ((ws.length : Int) * 5) 15 ≤ 15 := min_le_right _ _
  rcases src <;> simp <;> omega

/-- The confidence formula as the specification words it (spec-side
definition for the refinement comparison of claim C2). -/
def specConfidenceFormula (source : PositionSource) (found : Bool)
    (featureCount organicCount warningCount : Nat) : Int :=
  if found = false then 0
  else
    let c : Int := 100
    let c := c - (if source = .array_index_fallback then 30 else 0)
    let c := c - (if source = .unknown then 50 else 0)
    let c := c - min (5 * (featureCount : Int)) 20
    let c := c - (if organicCount < 10 then 10 else 0)
    let c := c - min (5 * (warningCount : Int)) 15
    min 100 (max 0 c)

/-- The code's confidence computation satisfies the spec formula. -/
theorem calculatePositionConfidence_eq_formula (src : PositionSource)
    (found : Bool) (fs : List SerpFeature) (cnt : Nat) (ws : List String) :
    calculatePositionConfidence src found fs cnt ws =
      specConfidenceFormula src found fs.length cnt ws.length := by
  unfold calculatePositionConfidence specConfidenceFormula
  rcases found
  · simp
  · have hmul1 : (5 : Int) * (fs.length : Int) = (fs.length : Int) * 5 :=
      mul_comm _ _
    have hmul2 : (5 : Int) * (ws.length : Int) = (ws.length : Int) * 5 :=
      mul_comm _ _
    have h1a : (0 : Int) ≤ min ((fs.length : Int) * 5) 20 :=
      le_min (by positivity) (by norm_num)
    have h2a : (0 : Int) ≤ min ((ws.length : Int) * 5) 15 :=
      le_min (by positivity) (by norm_num)
    rcases src <;>
      simp only [eq_self_iff_true, not_true, Bool.not_true, Bool.false_eq_true,
        if_false, reduceCtorEq, if_true, Bool.true_eq_false, hmul1, hmul2] <;>
      split_ifs <;> omega

/-- The found flag, position and confidence of a native record are those of
the scan stage (the verification pass only adds warnings afterwards). -/
theorem parseSearchResults_projections (keyword : String) (data : SerpResponse)
    (options : SearchOptions) :
    (parseSearchResults keyword data options).found = (nativeScan data options).found ∧
    (parseSearchResults keyword data options).position =
      (nativeScan data options).position ∧
    (parseSearchResults keyword data options).positionValidation.confidence =
      calculatePositionConfidence (nativeScan data options).positionSource
        (nativeScan data options).found (detectSerpFeatures data)
        (data.organic_results.getD []).length
        (nativeScan data options).warnings := by
  refine ⟨by simp [parseSearchResults], by simp [parseSearchResults], ?_⟩
  simp only [parseSearchResults]
  split <;> rfl

/-- The scan stage reports found exactly when it produced a position. -/
theorem nativeScan_found_iff_position (data : SerpResponse)
    (options : SearchOptions) :
    (nativeScan data options).found = true ↔
      (nativeScan data options).position ≠ Option.none := by
  simp only [nativeScan]
  split
  · simp
  · split <;> simp

/-- C2 counterexample: a custom-search record whose stored parameters feed
the spec formula to 60 (found, array-index fallback, no features, one
organic result, no warnings) but whose confidence is 100, the raw
domain-match confidence. -/
theorem customConfidence_counterexample :
    (parseGoogleCustomSearchResults "kw"
      { items := some [{ link := some "https://example.com/a" }] }
      { domain := "example.com" }).positionValidation.confidence = 100 ∧
    (parseGoogleCustomSearchResults "kw"
      { items := some [{ link := some "https://example.com/a" }] }
      { domain := "example.com" }).found = true ∧
    (parseGoogleCustomSearchResults "kw"
      { items := some [{ link := some "https://example.com/a" }] }
      { domain := "example.com" }).positionValidation.positionSource
      = .array_index_fallback ∧
    (parseGoogleCustomSearchResults "kw"
      { items := some [{ link := some "https://example.com/a" }] }
      { domain := "example.com" }).positionValidation.serpFeatures = [] ∧
    (parseGoogleCustomSearchResults "kw"
      { items := some [{ link := some "https://example.com/a" }] }
      { domain := "example.com" }).positionValidation.organicResultsCount = 1 ∧
    (parseGoogleCustomSearchResults "kw"
      { items := some [{ link := some "https://example.com/a" }] }
      { domain := "example.com" }).positionValidation.warnings = [] ∧
    specConfidenceFormula .array_index_fallback true 0 1 0 = 60 ∧
    (100 : Int) ≠ 60 := by decide

/-- C2 amended: the deterministic formula (start at 100; subtract 30 for
array-index fallback and 50 for unknown; subtract min(5·features, 20);
subtract 10 when under 10 organic results; subtract min(5·warnings, 15);
0 when not found; clamped to 0..100) gives the confidence of every
native-SERP record, evaluated over the warnings present when confidence is
computed (verification-mode warnings are appended afterwards).  A
custom-search record's confidence is instead the domain-match confidence of
the matched item, 0 when not found. -/
theorem confidence_formula_by_shape :
    (∀ keyword data options,
      (parseSearchResults keyword data options).positionValidation.confidence =
        specConfidenceFormula (nativeScan data options).positionSource
          (nativeScan data options).found (detectSerpFeatures data).length
          (data.organic_results.getD []).length
          (nativeScan data options).warnings.length) ∧
    (∀ keyword data options,
      (parseGoogleCustomSearchResults keyword data
          options).positionValidation.confidence =
        match customFindFirst (extractDomain options.domain)
            (data.items.getD []) 0 with
        | some (_, _, dm) => dm.confidence
        | Option.none => 0) := by
  constructor
  · intro keyword data options
    rw [(parseSearchResults_projections keyword data options).2.2,
      calculatePositionConfidence_eq_formula]
  · intro keyword data options
    simp only [parseGoogleCustomSearchResults]

/-- A successful custom-search item scan returns a matched comparison with
confidence in (0, 100]. -/
theorem customFindFirst_conf (target : String) :
    ∀ (items : List CustomItem) (i : Nat) out,
      customFindFirst target items i = some out →
      out.2.2.matched = true ∧ 0 < out.2.2.confidence ∧
        out.2.2.confidence ≤ 100 := by
  intro items
  induction items with
  | nil => intro i out h; cases h
  | cons it rest ih =>
    intro i out h
    unfold customFindFirst at h
    by_cases hl : truthyStr it.link = true
    · rw [if_pos hl] at h
      by_cases hm : (domainsMatch (extractDomain (it.link.getD "")) target).matched = true
      · rw [if_pos hm] at h
        cases h
        exact ⟨hm, domainsMatch_matched_conf_bounds _ _ hm⟩
      · rw [if_neg hm] at h
        exact ih (i + 1) out h
    · rw [if_neg hl] at h
      exact ih (i + 1) out h

/-- C1: for every ranking record of either provider shape, found is true
exactly when the position is non-null, and a found record's confidence lies
in (0, 100]. -/
theorem record_found_position_confidence :
    (∀ keyword data options,
      ((parseSearchResults keyword data options).found = true ↔
        (parseSearchResults keyword data options).position ≠ Option.none) ∧
      ((parseSearchResults keyword data options).found = true →
        0 < (parseSearchResults keyword data options).positionValidation.confidence ∧
        (parseSearchResults keyword data options).positionValidation.confidence ≤ 100)) ∧
    (∀ keyword data options,
      ((parseGoogleCustomSearchResults keyword data options).found = true ↔
        (parseGoogleCustomSearchResults keyword data options).position ≠ Option.none) ∧
      ((parseGoogleCustomSearchResults keyword data options).found = true →
        0 < (parseGoogleCustomSearchResults keyword data
          options).positionValidation.confidence ∧
        (parseGoogleCustomSearchResults keyword data
          options).positionValidation.confidence ≤ 100)) := by
  constructor
  · intro keyword data options
    obtain ⟨hf, hp, hc⟩ := parseSearchResults_projections keyword data options
    constructor
    · rw [hf, hp]
      exact nativeScan_found_iff_position data options
    · intro hfound
      rw [hf] at hfound
      rw [hc, hfound]
      exact calculatePositionConfidence_found_bounds _ _ _ _
  · intro keyword data options
    unfold parseGoogleCustomSearchResults
    rcases hbm : customFindFirst (extractDomain options.domain)
        (data.items.getD []) 0 with _ | ⟨it, i, dm⟩
    · simp [hbm]
    · have := customFindFirst_conf (extractDomain options.domain)
        (data.items.getD []) 0 (it, i, dm) hbm
      simp_all

/-- Two outcome oracles that agree on success/failure and on every failure
message, but may disagree on the error-kind tags. -/
def sameMessages (o1 o2 : Nat → Outcome) : Prop :=
  ∀ i, match o1 i, o2 i with
    | .ok, .ok => True
    | .fail _ m1, .fail _ m2 => m1 = m2
    | _, _ => False

/-- Track results that agree up to the kind stored in a final failure
report. -/
def sameVerdict : TrackResult → TrackResult → Prop
  | .ok a, .ok b => a = b
  | .allExhausted, .allExhausted => True
  | .retriesFailed _, .retriesFailed _ => True
  | _, _ => False

/-- C7 counterexample: a first attempt that fails with kind
`invalid_request` (message "HTTP 400: Bad Request") does not fail the lookup
immediately; the loop retries and the lookup succeeds on the second
attempt. -/
theorem trackKeyword_nonretryable_counterexample :
    ((fun n => if n = 0 then Outcome.fail .invalid_request "HTTP 400: Bad Request"
               else Outcome.ok) 0
      = Outcome.fail .invalid_request "HTTP 400: Bad Request") ∧
    (trackKeywordPool
      (fun n => if n = 0 then Outcome.fail .invalid_request "HTTP 400: Bad Request"
                else Outcome.ok) 3
      { apiKeys := [{ id := "k1" }, { id := "k2", priority := 2 }] }).1
      = .ok "k1" := by decide

/-- C7 amended: no error kind aborts the pool retry loop.  The loop's
control flow and every pool-state update depend only on whether each attempt
succeeded and on the failure messages (sniffed for quota and rate-limit
words); the error-kind tag, including `invalid_request` and `unauthorized`,
only flows into the final failure report, so all kinds alike rotate to the
next selection within max_retries. -/
theorem trackLoop_kind_irrelevant (o1 o2 : Nat → Outcome)
    (h : sameMessages o1 o2) :
    ∀ fuel callIdx pool e1 e2,
      (trackLoop o1 fuel callIdx pool e1).2 = (trackLoop o2 fuel callIdx pool e2).2 ∧
      sameVerdict (trackLoop o1 fuel callIdx pool e1).1
        (trackLoop o2 fuel callIdx pool e2).1 := by
  intro fuel
  induction fuel with
  | zero =>
    intro c pool e1 e2
    exact ⟨rfl, trivial⟩
  | succ n ih =>
    intro c pool e1 e2
    simp only [trackLoop]
    rcases hsel : getNextAvailableKey pool .serpapi with ⟨sel, pool'⟩
    rcases sel with _ | k
    · exact ⟨rfl, trivial⟩
    · dsimp only
      by_cases hlock : pool'.locks.contains k.id = true
      · simp only [if_pos hlock]
        exact ih c pool' e1 e2
      · simp only [if_neg hlock]
        have hmsg := h c
        rcases ho1 : o1 c with _ | ⟨k1, m1⟩ <;>
          rcases ho2 : o2 c with _ | ⟨k2, m2⟩ <;>
          rw [ho1, ho2] at hmsg <;> simp only [] at hmsg
        · exact ⟨rfl, rfl⟩
        · cases hmsg
          exact ih (c + 1)
            (releaseLock k.id (failureUpdate k.id m1
              { pool' with locks := k.id :: pool'.locks }))
            (some (k1, m1)) (some (k2, m1))

/-- Witness for `trackLoop_kind_irrelevant`: the same failure message tagged
`invalid_request` for one oracle and `timeout` for the other drives the loop
through identical states to the same verdict. -/
theorem trackLoop_kind_irrelevant_witness :
    sameMessages
      (fun n => if n = 0 then Outcome.fail .invalid_request "boom" else .ok)
      (fun n => if n = 0 then Outcome.fail .timeout "boom" else .ok) ∧
    ((trackLoop
        (fun n => if n = 0 then Outcome.fail .invalid_request "boom" else .ok)
        2 0 { apiKeys := [{ id := "k1" }, { id := "k2", priority := 2 }] }
        Option.none).2 =
      (trackLoop
        (fun n => if n = 0 then Outcome.fail .timeout "boom" else .ok)
        2 0 { apiKeys := [{ id := "k1" }, { id := "k2", priority := 2 }] }
        Option.none).2 ∧
    sameVerdict
      (trackLoop
        (fun n => if n = 0 then Outcome.fail .invalid_request "boom" else .ok)
        2 0 { apiKeys := [{ id := "k1" }, { id := "k2", priority := 2 }] }
        Option.none).1
      (trackLoop
        (fun n => if n = 0 then Outcome.fail .timeout "boom" else .ok)
        2 0 { apiKeys := [{ id := "k1" }, { id := "k2", priority := 2 }] }
        Option.none).1) :=
  have hsm : sameMessages
      (fun n => if n = 0 then Outcome.fail .invalid_request "boom" else .ok)
      (fun n => if n = 0 then Outcome.fail .timeout "boom" else .ok) := by
    intro i
    cases i with
    | zero => simp
    | succ j => simp
  ⟨hsm, trackLoop_kind_irrelevant _ _ hsm 2 0
    { apiKeys := [{ id := "k1" }, { id := "k2", priority := 2 }] }
    Option.none Option.none⟩

/-! ## Best-match selection against the spec (claim C3) -/

/-- Spec-side: the scan stops right after an exact match with a valid (at
least 1) provider position. -/
def specStopsAt (target : String) (r : OrganicResult) : Bool :=
  truthyStr r.link ∧
    (domainsMatch (extractDomain (r.link.getD "")) target).matchType = .exact ∧
    (match r.position with
     | some p => decide (1 ≤ p)
     | Option.none => false) = true

/-- Spec-side: the portion of the organic results the scan looks at — up to
and including the first exact match with a valid provider position, the
whole list when there is none. -/
def specScanned (target : String) : List OrganicResult → List OrganicResult
  | [] => []
  | r :: rest =>
    if specStopsAt target r then [r] else r :: specScanned target rest

/-- Spec-side: the matched results of a scan, in scan order, each carrying
its index and its domain-match grade. -/
def candsFrom (target : String) : List OrganicResult → Nat → List BestMatch
  | [], _ => []
  | r :: rest, i =>
    if truthyStr r.link ∧
        (domainsMatch (extractDomain (r.link.getD "")) target).matched = true then
      ⟨r, i, domainsMatch (extractDomain (r.link.getD "")) target⟩ ::
        candsFrom target rest (i + 1)
    else candsFrom target rest (i + 1)

/-- Spec-side: the highest domain-match confidence among candidates. -/
def specHighestConf : List BestMatch → Int
  | [] => 0
  | c :: cs => max c.domainMatch.confidence (specHighestConf cs)

/-- Whether a candidate carries a non-null provider `position` field. -/
def hasPosField (c : BestMatch) : Bool := c.result.position ≠ Option.none

/-- Spec-side selection: among the candidates of highest confidence, the
earliest one carrying a non-null provider position; if none carries one, the
earliest of the highest-confidence candidates. -/
def specSelect : List BestMatch → Option BestMatch
  | [] => Option.none
  | c :: cs =>
    let top := (c :: cs).filter
      (fun x => x.domainMatch.confidence = specHighestConf (c :: cs))
    match top.filter (fun x => hasPosField x) with
    | [] => top.head?
    | x :: _ => some x

/-- Spec-side best match of a native-SERP scan, exactly as the claim words
the tie-break: "a non-null provider position field". -/
def specBestMatch (target : String) (results : List OrganicResult) :
    Option BestMatch :=
  specSelect (candsFrom target (specScanned target results) 0)

/-- Whether a candidate carries a truthy provider `position` field (present
and non-zero) — the test the code actually performs; a position of 0 is
JS-falsy and counts as missing. -/
def hasTruthyPos (c : BestMatch) : Bool := truthyInt c.result.position

/-- Amended selection: among the candidates of highest confidence, the
earliest one carrying a truthy (present and non-zero) provider position; if
none carries one, the earliest of the highest-confidence candidates. -/
def amendedSelect : List BestMatch → Option BestMatch
  | [] => Option.none
  | c :: cs =>
    let top := (c :: cs).filter
      (fun x => x.domainMatch.confidence = specHighestConf (c :: cs))
    match top.filter (fun x => hasTruthyPos x) with
    | [] => top.head?
    | x :: _ => some x

/-- Amended best match of a native-SERP scan: as the claim, with the
tie-break preferring a truthy rather than merely non-null position. -/
def amendedBestMatch (target : String) (results : List OrganicResult) :
    Option BestMatch :=
  amendedSelect (candsFrom target (specScanned target results) 0)

/-- The loop body of the code's scan, as a fold step over candidates. -/
def pick (best : Option BestMatch) (c : BestMatch) : Option BestMatch :=
  if shouldReplace best c.result c.domainMatch then some c else best

/-- The truthy-and-positive test of the code's break condition coincides
with the spec's "valid (at least 1) provider position". -/
theorem truthy_posPositive_iff (p : Option Int) :
    ((truthyInt p = true ∧ posPositive p = true) ↔
      (match p with
       | some v => decide (1 ≤ v)
       | Option.none => false) = true) := by
  cases p <;> simp [truthyInt, posPositive] <;> omega

/-- The code's scan is the fold of `pick` over the candidates of the
scanned prefix. -/
theorem findBestMatch_eq_foldl (target : String) :
    ∀ (l : List OrganicResult) (i : Nat) (best : Option BestMatch),
      findBestMatch target l i best =
        (candsFrom target (specScanned target l) i).foldl pick best := by
  intro l
  induction l with
  | nil => intro i best; rfl
  | cons r rest ih =>
    intro i best
    by_cases hl : truthyStr r.link = true
    · by_cases hm : (domainsMatch (extractDomain (r.link.getD "")) target).matched
        = true
      · by_cases hbreak :
          ((domainsMatch (extractDomain (r.link.getD "")) target).matchType
              = .exact ∧
            truthyInt r.position = true ∧ posPositive r.position = true)
        · have hstop : specStopsAt target r = true := by
            have hp := (truthy_posPositive_iff r.position).mp
              ⟨hbreak.2.1, hbreak.2.2⟩
            simp [specStopsAt, hl, hbreak.1, hp]
          simp only [findBestMatch, specScanned, hstop, if_true, hl, hm,
            candsFrom, and_self, eq_self_iff_true, not_true, if_false]
          rw [if_pos hbreak]
          simp [pick]
        · have hstop : specStopsAt target r = false := by
            simp only [specStopsAt]
            by_cases he : (domainsMatch (extractDomain (r.link.getD ""))
                target).matchType = .exact
            · simp only [hl, he, true_and]
              rcases hpv : (match r.position with
                | some v => decide (1 ≤ v)
                | Option.none => false) with _ | _
              · rw [hpv]; simp
              · exact absurd ⟨he, (truthy_posPositive_iff r.position).mpr hpv⟩
                  hbreak
            · simp [he]
          simp only [findBestMatch, specScanned, hstop, hl, hm, candsFrom,
            and_self, eq_self_iff_true, not_true, if_false, if_true,
            Bool.false_eq_true]
          rw [if_neg hbreak, List.foldl_cons]
          exact ih (i + 1) (pick best ⟨r, i,
            domainsMatch (extractDomain (r.link.getD "")) target⟩)
      · have hstop : specStopsAt target r = false := by
          simp only [specStopsAt]
          by_cases he : (domainsMatch (extractDomain (r.link.getD ""))
              target).matchType = .exact
          · exact absurd (domainsMatch_exact_matched _ _ he) hm
          · simp [he]
        simp only [findBestMatch, specScanned, hstop, hl, hm, candsFrom,
          eq_self_iff_true, not_true, if_false, Bool.false_eq_true, and_false]
        exact ih (i + 1) best
    · have hl' : truthyStr r.link = false := by
        simpa using hl
      have hstop : specStopsAt target r = false := by
        simp [specStopsAt, hl']
      simp only [findBestMatch, specScanned, hstop, hl', Bool.false_eq_true,
        if_false, not_false_iff, if_true, candsFrom, false_and]
      exact ih (i + 1) best

/-- Selection at a given confidence level: earliest truthy-position
top-confidence candidate, else earliest top-confidence candidate. -/
def selectAt (m : Int) (l : List BestMatch) : Option BestMatch :=
  match (l.filter (fun x => x.domainMatch.confidence = m)).filter
      (fun x => hasTruthyPos x) with
  | [] => (l.filter (fun x => x.domainMatch.confidence = m)).head?
  | x :: _ => some x

/-- `amendedSelect` on a non-empty list is `selectAt` its highest grade. -/
theorem amendedSelect_cons (c : BestMatch) (cs : List BestMatch) :
    amendedSelect (c :: cs) = selectAt (specHighestConf (c :: cs)) (c :: cs) := rfl

/-- The highest confidence bounds the head's confidence. -/
theorem specHighestConf_ge_head (c : BestMatch) (cs : List BestMatch) :
    c.domainMatch.confidence ≤ specHighestConf (c :: cs) := le_max_left _ _

/-- Candidates out of the confidence level do not affect the selection
(head form). -/
theorem selectAt_cons_skip (m : Int) (b : BestMatch) (l : List BestMatch)
    (hb : ¬ b.domainMatch.confidence = m) :
    selectAt m (b :: l) = selectAt m l := by
  have h : (b :: l).filter (fun x => x.domainMatch.confidence = m) =
      l.filter (fun x => x.domainMatch.confidence = m) := by
    simp [List.filter_cons, hb]
  unfold selectAt
  rw [h]

/-- Candidates out of the confidence level do not affect the selection
(second-position form). -/
theorem selectAt_mid_skip (m : Int) (b c : BestMatch) (l : List BestMatch)
    (hc : ¬ c.domainMatch.confidence = m) :
    selectAt m (b :: c :: l) = selectAt m (b :: l) := by
  have h : (b :: c :: l).filter (fun x => x.domainMatch.confidence = m) =
      (b :: l).filter (fun x => x.domainMatch.confidence = m) := by
    simp [List.filter_cons, hc]
  unfold selectAt
  rw [h]

/-- A top-confidence head carrying a truthy position is selected
outright. -/
theorem selectAt_head_pos (m : Int) (b : BestMatch) (l : List BestMatch)
    (hbm : b.domainMatch.confidence = m) (hbp : hasTruthyPos b = true) :
    selectAt m (b :: l) = some b := by
  have h1 : (b :: l).filter (fun x => x.domainMatch.confidence = m) =
      b :: l.filter (fun x => x.domainMatch.confidence = m) := by
    simp [List.filter_cons, hbm]
  have h2 : (b :: l.filter (fun x => x.domainMatch.confidence = m)).filter
      (fun x => hasTruthyPos x) =
      b :: (l.filter (fun x => x.domainMatch.confidence = m)).filter
        (fun x => hasTruthyPos x) := by
    simp [List.filter_cons, hbp]
  unfold selectAt
  rw [h1, h2]

/-- A top-confidence head without a truthy position yields to a later
truthy-position top-confidence candidate. -/
theorem selectAt_cons_nopos_ex (m : Int) (b : BestMatch) (l : List BestMatch)
    (hbm : b.domainMatch.confidence = m) (hbp : hasTruthyPos b = false)
    (hex : ∃ x ∈ l, x.domainMatch.confidence = m ∧ hasTruthyPos x = true) :
    selectAt m (b :: l) = selectAt m l := by
  have h1 : (b :: l).filter (fun x => x.domainMatch.confidence = m) =
      b :: l.filter (fun x => x.domainMatch.confidence = m) := by
    simp [List.filter_cons, hbm]
  have h2 : (b :: l.filter (fun x => x.domainMatch.confidence = m)).filter
      (fun x => hasTruthyPos x) =
      (l.filter (fun x => x.domainMatch.confidence = m)).filter
        (fun x => hasTruthyPos x) := by
    simp [List.filter_cons, hbp]
  obtain ⟨x, hxl, hxm, hxp⟩ := hex
  have hmem : x ∈ (l.filter
      (fun y => y.domainMatch.confidence = m)).filter
      (fun y => hasTruthyPos y) := by
    rw [List.mem_filter, List.mem_filter]
    exact ⟨⟨hxl, by simp [hxm]⟩, hxp⟩
  unfold selectAt
  rw [h1, h2]
  rcases hF : (l.filter (fun y => y.domainMatch.confidence = m)).filter
      (fun y => hasTruthyPos y) with _ | ⟨y, ys⟩
  · rw [hF] at hmem; cases hmem
  · rw [hF]

/-- A later top-confidence candidate without a truthy position never
displaces a top-confidence head. -/
theorem selectAt_mid_nopos (m : Int) (b c : BestMatch) (l : List BestMatch)
    (hbm : b.domainMatch.confidence = m) (hcm : c.domainMatch.confidence = m)
    (hcp : hasTruthyPos c = false) :
    selectAt m (b :: c :: l) = selectAt m (b :: l) := by
  have h1 : (b :: c :: l).filter (fun x => x.domainMatch.confidence = m) =
      b :: c :: l.filter (fun x => x.domainMatch.confidence = m) := by
    simp [List.filter_cons, hbm, hcm]
  have h1' : (b :: l).filter (fun x => x.domainMatch.confidence = m) =
      b :: l.filter (fun x => x.domainMatch.confidence = m) := by
    simp [List.filter_cons, hbm]
  unfold selectAt
  rw [h1, h1']
  by_cases hbp : hasTruthyPos b = true
  · have e1 : (b :: c :: l.filter (fun x => x.domainMatch.confidence = m)).filter
        (fun x => hasTruthyPos x) =
        b :: (c :: l.filter (fun x => x.domainMatch.confidence = m)).filter
          (fun x => hasTruthyPos x) := by
      simp [List.filter_cons, hbp]
    have e2 : (b :: l.filter (fun x => x.domainMatch.confidence = m)).filter
        (fun x => hasTruthyPos x) =
        b :: (l.filter (fun x => x.domainMatch.confidence = m)).filter
          (fun x => hasTruthyPos x) := by
      simp [List.filter_cons, hbp]
    rw [e1, e2]
  · have e1 : (b :: c :: l.filter (fun x => x.domainMatch.confidence = m)).filter
        (fun x => hasTruthyPos x) =
        (l.filter (fun x => x.domainMatch.confidence = m)).filter
          (fun x => hasTruthyPos x) := by
      simp [List.filter_cons, hbp, hcp]
    have e2 : (b :: l.filter (fun x => x.domainMatch.confidence = m)).filter
        (fun x => hasTruthyPos x) =
        (l.filter (fun x => x.domainMatch.confidence = m)).filter
          (fun x => hasTruthyPos x) := by
      simp [List.filter_cons, hbp]
    rw [e1, e2]
    rcases hF : (l.filter (fun y => y.domainMatch.confidence = m)).filter
        (fun y => hasTruthyPos y) with _ | ⟨y, ys⟩ <;> rw [hF] <;> simp

/-- Dropping a beaten head does not change the amended selection. -/
theorem amendedSelect_drop_head (b c : BestMatch) (cs : List BestMatch)
    (hbeat : c.domainMatch.confidence > b.domainMatch.confidence ∨
      (c.domainMatch.confidence = b.domainMatch.confidence ∧
        hasTruthyPos c = true ∧ hasTruthyPos b = false)) :
    amendedSelect (b :: c :: cs) = amendedSelect (c :: cs) := by
  have hM : specHighestConf (b :: c :: cs) = specHighestConf (c :: cs) := by
    simp only [specHighestConf]
    rcases hbeat with h | ⟨h, _, _⟩ <;> omega
  rw [amendedSelect_cons, amendedSelect_cons, hM]
  have hcm_le : c.domainMatch.confidence ≤ specHighestConf (c :: cs) :=
    specHighestConf_ge_head c cs
  by_cases hbm : b.domainMatch.confidence = specHighestConf (c :: cs)
  · rcases hbeat with h | ⟨hceq, hcp, hbp⟩
    · omega
    · exact selectAt_cons_nopos_ex _ b (c :: cs) hbm hbp
        ⟨c, by simp, by omega, hcp⟩
  · exact selectAt_cons_skip _ b (c :: cs) hbm

/-- Dropping a kept-out second candidate does not change the amended
selection. -/
theorem amendedSelect_drop_second (b c : BestMatch) (cs : List BestMatch)
    (hkeep : c.domainMatch.confidence < b.domainMatch.confidence ∨
      (c.domainMatch.confidence = b.domainMatch.confidence ∧
        (hasTruthyPos c = false ∨ hasTruthyPos b = true))) :
    amendedSelect (b :: c :: cs) = amendedSelect (b :: cs) := by
  have hM : specHighestConf (b :: c :: cs) = specHighestConf (b :: cs) := by
    simp only [specHighestConf]
    rcases hkeep with h | ⟨h, _⟩ <;> omega
  rw [amendedSelect_cons, amendedSelect_cons, hM]
  have hbm_le : b.domainMatch.confidence ≤ specHighestConf (b :: cs) :=
    specHighestConf_ge_head b cs
  by_cases hcm : c.domainMatch.confidence = specHighestConf (b :: cs)
  · rcases hkeep with h | ⟨hceq, hor⟩
    · omega
    · have hbm : b.domainMatch.confidence = specHighestConf (b :: cs) := by omega
      rcases hor with hcp | hbp
      · exact selectAt_mid_nopos _ b c cs hbm hcm hcp
      · rw [selectAt_head_pos _ b (c :: cs) hbm hbp,
          selectAt_head_pos _ b cs hbm hbp]
  · exact selectAt_mid_skip _ b c cs hcm

/-- The fold of the code's replacement rule computes the amended selection,
for candidates with nonnegative grades. -/
theorem foldl_pick_some :
    ∀ (cands : List BestMatch) (b : BestMatch),
      0 ≤ b.domainMatch.confidence →
      (∀ c ∈ cands, 0 ≤ c.domainMatch.confidence) →
      List.foldl pick (some b) cands = amendedSelect (b :: cands) := by
  intro cands
  induction cands with
  | nil =>
    intro b hbn _
    rw [amendedSelect_cons]
    have hm : specHighestConf [b] = b.domainMatch.confidence := by
      simp only [specHighestConf]
      omega
    rw [hm]
    by_cases hbp : hasTruthyPos b = true
    · rw [selectAt_head_pos _ b [] rfl hbp]
      rfl
    · have hbp' : hasTruthyPos b = false := by simpa using hbp
      show some b = _
      unfold selectAt
      simp [List.filter_cons, hbp']
  | cons c cs ih =>
    intro b hbn hc
    rw [List.foldl_cons]
    have hcn := hc c (by simp)
    have hcs : ∀ x ∈ cs, 0 ≤ x.domainMatch.confidence :=
      fun x hx => hc x (by simp [hx])
    by_cases hrep : shouldReplace (some b) c.result c.domainMatch = true
    · have hpick : pick (some b) c = some c := by simp [pick, hrep]
      rw [hpick, ih c hcn hcs]
      refine (amendedSelect_drop_head b c cs ?_).symm
      simp only [shouldReplace, decide_eq_true_eq] at hrep
      rcases hrep with h | ⟨h1, h2, h3⟩
      · exact Or.inl h
      · refine Or.inr ⟨h1, by simpa [hasTruthyPos] using h2, ?_⟩
        simpa [hasTruthyPos] using h3
    · have hpick : pick (some b) c = some b := by simp [pick, hrep]
      rw [hpick, ih b hbn hcs]
      refine (amendedSelect_drop_second b c cs ?_).symm
      simp only [shouldReplace, decide_eq_true_eq] at hrep
      rw [not_or] at hrep
      obtain ⟨hlt, hconj⟩ := hrep
      by_cases heq : c.domainMatch.confidence = b.domainMatch.confidence
      · refine Or.inr ⟨heq, ?_⟩
        by_cases hcp : hasTruthyPos c = true
        · refine Or.inr ?_
          by_contra hbp
          exact hconj ⟨heq, by simpa [hasTruthyPos] using hcp,
            by simpa [hasTruthyPos] using hbp⟩
        · exact Or.inl (by simpa using hcp)
      · exact Or.inl (by omega)

/-- Every candidate carries a nonnegative domain-match grade. -/
theorem candsFrom_conf_nonneg (target : String) :
    ∀ (l : List OrganicResult) (i : Nat),
      ∀ c ∈ candsFrom target l i, 0 ≤ c.domainMatch.confidence := by
  intro l
  induction l with
  | nil => intro i c hc; cases hc
  | cons r rest ih =>
    intro i c hc
    unfold candsFrom at hc
    by_cases hcond : (truthyStr r.link = true ∧
        (domainsMatch (extractDomain (r.link.getD "")) target).matched = true)
    · rw [if_pos hcond] at hc
      rcases List.mem_cons.mp hc with rfl | hmem
      · exact domainsMatch_conf_nonneg _ _
      · exact ih (i + 1) c hmem
    · rw [if_neg hcond] at hc
      exact ih (i + 1) c hc

/-- C3 counterexample: at a confidence tie between two subdomain matches,
the earlier carrying provider position 0 and the later position 5, the scan
selects the later result — the tie-break at serpApiPoolManager.ts:773 tests
JS truthiness, and 0 is falsy — while the claim's rule (prefer a non-null
position, then the earliest index) selects the earlier. -/
theorem findBestMatch_not_claim_rule :
    ((findBestMatch "example.com"
      [{ position := some 0, link := some "https://blog.example.com/a" },
       { position := some 5, link := some "https://shop.example.com/b" }]
      0 Option.none).map (fun b => b.index) = some 1) ∧
    ((specBestMatch "example.com"
      [{ position := some 0, link := some "https://blog.example.com/a" },
       { position := some 5, link := some "https://shop.example.com/b" }]).map
      (fun b => b.index) = some 0) ∧
    findBestMatch "example.com"
      [{ position := some 0, link := some "https://blog.example.com/a" },
       { position := some 5, link := some "https://shop.example.com/b" }]
      0 Option.none ≠
    specBestMatch "example.com"
      [{ position := some 0, link := some "https://blog.example.com/a" },
       { position := some 5, link := some "https://shop.example.com/b" }] := by
  decide

/-- C3 amended: for every list of organic results, the native-SERP parser
selects as best match the matched result with the highest domain-match
confidence; among results of equal confidence it prefers one carrying a
truthy provider position field (present and non-zero — a zero position
counts as missing); on a further tie it keeps the earliest index; and
iteration stops early exactly when an exact match with a valid (at least 1)
provider position is encountered. -/
theorem findBestMatch_follows_amended (target : String)
    (results : List OrganicResult) :
    findBestMatch target results 0 Option.none =
      amendedBestMatch target results := by
  rw [findBestMatch_eq_foldl, amendedBestMatch]
  rcases hC : candsFrom target (specScanned target results) 0 with _ | ⟨c, cs⟩
  · rfl
  · have hprops : ∀ x ∈ c :: cs, 0 ≤ x.domainMatch.confidence := by
      rw [← hC]
      exact fun x hx =>
        candsFrom_conf_nonneg target (specScanned target results) 0 x hx
    rw [List.foldl_cons]
    have hstep : pick Option.none c = some c := by simp [pick, shouldReplace]
    rw [hstep]
    exact foldl_pick_some cs c (hprops c (List.mem_cons_self c cs))
      (fun x hx => hprops x (List.mem_cons_of_mem c hx))

/-- Witness for `trackKeyword_allExhausted`: a pool whose only credential is
exhausted. -/
theorem trackKeyword_allExhausted_witness :
    ((getNextAvailableKey
        { apiKeys := [{ id := "k1", status := .exhausted }] } .serpapi).1
      = Option.none) ∧
    1 ≤ min ({ apiKeys := [{ id := "k1", status := .exhausted }] } :
      PoolState).apiKeys.length 3 ∧
    (trackKeywordPool (fun _ => .ok) 3
      { apiKeys := [{ id := "k1", status := .exhausted }] }).1 = .allExhausted :=
  ⟨by decide, by decide,
    trackKeyword_allExhausted { apiKeys := [{ id := "k1", status := .exhausted }] }
      3 (fun _ => .ok) (by decide) (by decide)⟩

end Serp
